import Mathlib

/-!
Verification of the SpMV micro-benchmark (DELIVERABLE-1).

Shallow embedding of the C sources under src/DELIVERABLE-1.  C `int` values
are idealized as `Int`/`Nat` (machine overflow is out of scope of the claims),
C `double` values as `Rat` (exact arithmetic; the claims about the real
element type concern the summation structure, not IEEE rounding), and the
arena allocator as a list of allocated objects addressed by handles.
-/

namespace Spmv

/-! ### Return codes, from include/rc.h -/

/-- rc.h: `#define RC_OK 0`. -/
def RC_OK : Int := 0

/-- rc.h: `#define RC_FAIL -1`. -/
def RC_FAIL : Int := -1

/-- rc.h: `#define RC_INVALID_ARG_ERR 0x101`; this is the code csr.c reports
for incompatible matrix/vector operands (message: incompatible dimensions or
types). -/
def RC_INVALID_ARG_ERR : Int := 0x101

/-- rc.h: `#define RC_MEM_ALLOC_ERR 0x103`. -/
def RC_MEM_ALLOC_ERR : Int := 0x103

/-! ### Value-level data model

The matrix and vector structs hold arena handles in C; for the claims about
numeric behaviour we embed them at value level, with the backing arrays
inlined as lists.  Array reads `a[k]` are embedded as `List.getD` (reads are
in bounds in every execution the claims quantify over). -/

/-- vec.c / vec.h: `struct Vec` (length, element-type flag, backing array). -/
structure Vec (α : Type) where
  n : Nat
  is_real : Bool
  val : List α
deriving DecidableEq

/-- csr.h: `struct CsrMatrix`; `row` is the row_ptr array (length m+1),
`col` the column-index array and `val` the value array (length nz each). -/
structure CsrMatrix (α : Type) where
  m : Nat
  n : Nat
  nz : Nat
  is_real : Bool
  row : List Nat
  col : List Nat
  val : List α
deriving DecidableEq

/-- coo.h / coo.c: `struct CooMatrix` as used by csr.c: parallel arrays
`row`, `col`, `val` of length nz, in file order. -/
structure CooMatrix (α : Type) where
  m : Nat
  n : Nat
  nz : Nat
  is_real : Bool
  row : List Nat
  col : List Nat
  val : List α
deriving DecidableEq

/-! ### SpMV kernels, from src/csr.c -/

/-- csr.c lines 55..96, `prv_csr_matrix_mul_vec_serial`: for each row `i` in
`[0, m)` (the C loop `for (i = 0; i <= mtx->m - 1; ++i)`), accumulate
`sum += mtx_val[k] * vec_val[col[k]]` for `k` ascending over
`[row[i], row[i+1])` and store the sum in `res_val[i]`.  The result vector is
fully overwritten, so the kernel is embedded as the list of row results.
Both the `is_real` (double) and the integer branch have this exact shape;
the element type is the parameter `α`. -/
def prv_csr_matrix_mul_vec_serial {α : Type} [AddCommMonoid α] [Mul α]
    (mtx : CsrMatrix α) (vec : Vec α) : List α :=
  (List.range mtx.m).map (fun i =>
    (List.range' (mtx.row.getD i 0) (mtx.row.getD (i + 1) 0 - mtx.row.getD i 0)).foldl
      (fun sum k => sum + mtx.val.getD k 0 * vec.val.getD (mtx.col.getD k 0) 0) 0)

/-- csr.c lines 106..143, `prv_csr_matrix_mul_vec_omp`: the OpenMP strategy.
`#pragma omp parallel for` distributes the rows over threads; each iteration
writes only its own `res_val[i]`, and the inner `#pragma omp simd
reduction(+ : sum)` sums the same index set `[row[i], row[i+1])` in an
unspecified association order.  The embedding therefore computes each row
independently as the unordered sum over `Finset.Ico row[i] row[i+1]`. -/
def prv_csr_matrix_mul_vec_omp {α : Type} [AddCommMonoid α] [Mul α]
    (mtx : CsrMatrix α) (vec : Vec α) : List α :=
  (List.range mtx.m).map (fun i =>
    ∑ k ∈ Finset.Ico (mtx.row.getD i 0) (mtx.row.getD (i + 1) 0),
      mtx.val.getD k 0 * vec.val.getD (mtx.col.getD k 0) 0)

/-- vec.c `vec_size`: `vec ? (int)vec->n : RC_FAIL`; the embedding has no
null pointers, so it is the length. -/
def vec_size {α : Type} (v : Vec α) : Int := (v.n : Int)

/-- csr.c lines 39..45, `prv_csr_matrix_is_compatible_with_vec`:
`(mtx->n == vec->n) && (mtx->is_real == vec->is_real)`. -/
def prv_csr_matrix_is_compatible_with_vec {α : Type} (mtx : CsrMatrix α) (vec : Vec α) : Bool :=
  mtx.n == vec.n && mtx.is_real == vec.is_real

/-- csr.c lines 206..236, `csr_matrix_mul_vec`: after the null checks (not
representable here), reject incompatible operands, then reject a result
vector whose size differs from `mtx->m`, and otherwise run the strategy
selected by config.h — only `CONFIG_ENABLE_OMP_PARALLELISM` is defined, so
the OpenMP kernel runs.  The C function writes through `result` and returns
an `int` code; the embedding returns the pair (code, result after call). -/
def csr_matrix_mul_vec {α : Type} [AddCommMonoid α] [Mul α]
    (mtx : CsrMatrix α) (vec : Vec α) (result : Vec α) : Int × Vec α :=
  if prv_csr_matrix_is_compatible_with_vec mtx vec = false then
    (RC_INVALID_ARG_ERR, result)
  else if vec_size result ≠ (mtx.m : Int) then
    (RC_INVALID_ARG_ERR, result)
  else
    (RC_OK, { result with val := prv_csr_matrix_mul_vec_omp mtx vec })

/-! ### COO → CSR conversion, from src/csr.c lines 162..193 -/

/-- One step of the counting loop body `csr_row[coo_row[i] + 1]++`
(csr.c line 187), on the row_ptr array embedded as a list. -/
def listIncr (l : List Nat) (j : Nat) : List Nat :=
  l.set j (l.getD j 0 + 1)

/-- csr.c lines 186..187: `for (; i < src->nz; ++i) csr_row[coo_row[i] + 1]++;`
starting from the `arena_calloc`-zeroed array of length m+1. -/
def csrCountLoop (cooRow : List Nat) (nz : Nat) (init : List Nat) : List Nat :=
  (List.range nz).foldl (fun acc i => listIncr acc (cooRow.getD i 0 + 1)) init

/-- csr.c lines 189..190: `for (i = 0; i < dest->m; ++i) csr_row[i + 1] += csr_row[i];`. -/
def csrScanLoop (m : Nat) (l : List Nat) : List Nat :=
  (List.range m).foldl (fun acc i => acc.set (i + 1) (acc.getD (i + 1) 0 + acc.getD i 0)) l

/-- csr.c lines 162..193, `csr_matrix_from_coo` (value level): copies the
dimension fields, copies the `col` and `val` handles from the source COO
matrix unchanged (lines 171..172 — there is no scatter pass, so the CSR
matrix sees the COO column/value arrays in original file order), allocates
the zeroed row_ptr array of length m+1 and fills it with the per-row counts
followed by the in-place running-sum loop. -/
def csr_matrix_from_coo {α : Type} (src : CooMatrix α) : CsrMatrix α :=
  { m := src.m, n := src.n, nz := src.nz, is_real := src.is_real,
    col := src.col,
    val := src.val,
    row := csrScanLoop src.m (csrCountLoop src.row src.nz (List.replicate (src.m + 1) 0)) }

/-- The half-open slice `col_idx[row_ptr[i] .. row_ptr[i+1])` of a CSR
matrix, the object claim C1 speaks about. -/
def csrColSlice {α : Type} (mtx : CsrMatrix α) (i : Nat) : List Nat :=
  (mtx.col.drop (mtx.row.getD i 0)).take (mtx.row.getD (i + 1) 0 - mtx.row.getD i 0)

/-- The column indices present in row `i` of a COO matrix, in file order
(duplicates preserved). -/
def cooRowCols {α : Type} (src : CooMatrix α) (i : Nat) : List Nat :=
  (src.row.zip src.col).filterMap (fun p => if p.1 = i then some p.2 else none)

/-! ### Benchmark harness, from src/bench.c -/

/-- utils.h: `#define GET_MIN(x, y) ((x) > (y) ? (y) : (x))`. -/
def GET_MIN (x y : Nat) : Nat := if x > y then y else x

/-- utils.h: `#define GET_MAX(x, y) ((x) > (y) ? (x) : (y))`. -/
def GET_MAX (x y : Nat) : Nat := if x > y then x else y

/-- `UINT64_MAX`, the initial value of `results->min` in bench.c line 142. -/
def U64_MAX : Nat := 18446744073709551615

/-- bench.h: `struct BenchResults`; durations are microsecond counts
(`uint64_t`), idealized as `Nat`. -/
structure BenchResults where
  warmup_iters : Nat
  runs : Nat
  samples : List Nat
  mean : Nat
  stddev : Nat
  min : Nat
  max : Nat
deriving DecidableEq

/-- bench.c lines 57..65, `prv_bench_compute_stddev`: accumulates
`sum += (uint64_t)(diff * diff)` with `diff = (int64_t)samples[i] - (int64_t)mean`
over the `runs` samples (the callers pass an array of exactly `runs`
entries, embedded as the list `samples`), then returns
`(uint64_t)sqrt((double)sum / (double)runs)`.  For an integer `n`,
`n ≤ sqrt(sum / runs)` over the reals iff `n * n * runs ≤ sum` iff
`n * n ≤ sum / runs` in truncated natural division, so the truncated result
of the C expression is exactly `Nat.sqrt (sum / runs)` (double rounding of
astronomically large sums is out of scope). -/
def prv_bench_compute_stddev (samples : List Nat) (runs : Nat) (mean : Nat) : Nat :=
  Nat.sqrt
    ((samples.foldl
        (fun (sum : Nat) (s : Nat) =>
          sum + (((s : Int) - (mean : Int)) * ((s : Int) - (mean : Int))).toNat)
        0) / runs)

/-- bench.c lines 156..172, the timed loop of `bench_run`: run `i` invokes
`csr_matrix_mul_vec` (abstracted as `kernel i`, returning a code) and on a
non-RC_OK code returns it immediately, leaving the partially updated results
behind; otherwise it records the measured duration (abstracted as `dur i`)
and updates the running sum (accumulated in `results->mean`), min and max.
The state is (samples so far, running sum, min, max). -/
def bench_run_loop (kernel : Nat → Int) (dur : Nat → Nat) :
    Nat → Nat → List Nat × Nat × Nat × Nat →
      Except (Int × List Nat × Nat × Nat × Nat) (List Nat × Nat × Nat × Nat)
  | _, 0, st => .ok st
  | i, c + 1, (samps, sum, mn, mx) =>
    let res := kernel i
    if res = RC_OK then
      let s := dur i
      bench_run_loop kernel dur (i + 1) c (samps ++ [s], sum + s, GET_MIN mn s, GET_MAX mx s)
    else
      .error (res, samps, sum, mn, mx)

/-- bench.c lines 128..184, `bench_run`: initializes the results structure
(`min = UINT64_MAX`, everything else 0), allocates the samples array (the
arena is modelled as unbounded, so allocation succeeds), runs the timed
loop, then divides `results->mean` by `runs` and computes the standard
deviation.  `mean /= (uint64_t)g_bench_handler.runs` is an unsigned integer
division: when `runs = 0` it divides by zero, which is undefined behaviour
in C — the embedding returns `none` for that execution; there is no code
path that turns `runs = 0` into an error code.  A kernel failure returns the
kernel's code with the partially filled results. -/
def bench_run (warmup_iters runs : Nat) (kernel : Nat → Int) (dur : Nat → Nat) :
    Option (Int × BenchResults) :=
  match bench_run_loop kernel dur 0 runs ([], 0, U64_MAX, 0) with
  | .error (e, samps, sum, mn, mx) =>
    some (e, { warmup_iters := warmup_iters, runs := runs, samples := samps,
               mean := sum, stddev := 0, min := mn, max := mx })
  | .ok (samps, sum, mn, mx) =>
    if runs = 0 then
      none
    else
      some (RC_OK,
        { warmup_iters := warmup_iters, runs := runs, samples := samps,
          mean := sum / runs,
          stddev := prv_bench_compute_stddev samps runs (sum / runs),
          min := mn, max := mx })

/-- bench.c lines 118..126, `bench_warmup`: the loop invokes the kernel
`warmup_iters` times but DISCARDS every return value (the call result of
`csr_matrix_mul_vec` on line 123 is not inspected), and the function then
returns `RC_OK` unconditionally. -/
def bench_warmup (warmup_iters : Nat) (kernel : Nat → Int) : Int :=
  ((List.range warmup_iters).map kernel).foldl (fun acc _ => acc) RC_OK

/-- bench.c lines 201..208, the sample-serialization part of
`bench_save_result`: `for (i = 0; i < results->runs - 1; ++i)` prints
`samples[i]`, and the final `fprintf` then prints `samples[i]` at the index
where the loop stopped.  `runs` is a C `int`, so for `runs = 0` the loop
bound is `-1`, the loop body never executes, and the final print reads
`samples[0]` — an out-of-bounds read on the empty samples array, embedded
as an `Option` read.  Returns the list of printed samples. -/
def bench_save_samples (runs : Int) (samples : List Nat) : Option (List Nat) := do
  let head ← (List.range (runs - 1).toNat).mapM (fun i => samples[i]?)
  let last ← samples[(runs - 1).toNat]?
  return head ++ [last]

/-- cli.c lines 77..83, the `-r` option: `runs = atoi(optarg)` is rejected
(process exit) only when `runs < 0`; any non-negative count, including 0,
is accepted. -/
def cli_runs_accepted (runs : Int) : Bool :=
  if runs < 0 then false else true

/-! ### Arena/handle-level model, from the arena interface used by coo.c and
csr.c

The arena allocator itself lives outside src/ (arena.h is an external
dependency); its interface is used by the sources exactly as described in
the spec §4.1: `arena_calloc` hands out a zero-initialized object and a
relocation-safe handle, `arena_get_ptr` materializes the object a handle
refers to.  Objects are modelled as lists of cells (`Int`; the cell payload
type is irrelevant to the handle claims), and the arena as the list of
objects in allocation order, a handle being the index of its object. -/

/-- arena.h handle: an index into the arena's object list. -/
structure ArenaObj where
  id : Nat
deriving DecidableEq

/-- arena.h arena: the allocated objects, in allocation order.  Modelled as
unbounded (allocation always succeeds); the out-of-memory early returns of
the sources are therefore never taken. -/
structure ArenaHandler where
  objs : List (List Int)
deriving DecidableEq

/-- `arena_calloc(arena, size, count, &obj)`: allocates a zero-filled array
of `count` cells and stores its handle into `obj`; returns the grown arena
and the handle (the element size only fixes the byte stride and is dropped). -/
def arena_calloc (a : ArenaHandler) (count : Nat) : ArenaHandler × ArenaObj :=
  ({ objs := a.objs ++ [List.replicate count 0] }, { id := a.objs.length })

/-- `arena_get_ptr(&obj)`: materializes the object a handle refers to. -/
def arena_get_ptr (a : ArenaHandler) (h : ArenaObj) : List Int :=
  a.objs.getD h.id []

/-- A single store `ptr[i] = v` through a materialized handle. -/
def arena_set_item (a : ArenaHandler) (h : ArenaObj) (i : Nat) (v : Int) : ArenaHandler :=
  { objs := a.objs.set h.id ((a.objs.getD h.id []).set i v) }

/-- coo.h as used by coo.c: `struct CooMatrix` at handle level — the three
parallel arrays are arena handles. -/
structure CooMatrixA where
  m : Nat
  n : Nat
  nz : Nat
  is_real : Bool
  col : ArenaObj
  row : ArenaObj
  val : ArenaObj
deriving DecidableEq

/-- csr.h as used by csr.c: `struct CsrMatrix` at handle level. -/
structure CsrMatrixA where
  m : Nat
  n : Nat
  nz : Nat
  is_real : Bool
  col : ArenaObj
  row : ArenaObj
  val : ArenaObj
deriving DecidableEq

/-- coo.c lines 43..73, `prv_coo_matrix_init`: sets the scalar fields, then
performs three `arena_calloc` calls of `nz` elements each.  The first stores
its handle into `&mtx->col` (line 54) and the second into `&mtx->row`
(line 60); the third (line 66), sized by the element type, stores its handle
into `&mtx->row` AGAIN — the source never writes `mtx->val`, which keeps
whatever value the caller's (uninitialized) struct had. -/
def prv_coo_matrix_init (mtx : CooMatrixA) (m n nz : Nat) (is_real : Bool)
    (arena : ArenaHandler) : ArenaHandler × CooMatrixA :=
  let p1 := arena_calloc arena nz
  let p2 := arena_calloc p1.1 nz
  let p3 := arena_calloc p2.1 nz
  (p3.1,
    { m := m, n := n, nz := nz, is_real := is_real,
      col := p1.2,
      row := p3.2,
      val := mtx.val })

/-- coo.c lines 187..196, the read loop of `coo_matrix_load_from_file`:
for each of the `nz` data lines of the Matrix Market body (a line is
`row col value`, 1-indexed; a parsed line is the triple in that order),
`fscanf(fp, "%d %d", &col[i], &row[i])` stores the line's FIRST number into
`col[i]` and its SECOND into `row[i]` (no `- 1` conversion anywhere), and
the value is stored through `arena_get_ptr(&mtx->val)` — a handle the init
never set, so in C this write goes through an indeterminate handle
(undefined behaviour); the embedding performs the store through whatever
handle `val` holds (a store through a handle outside the arena is a no-op
here). -/
def coo_load_loop (mtx : CooMatrixA) (file : List (Int × Int × Int))
    (a : ArenaHandler) : ArenaHandler :=
  (List.enum file).foldl
    (fun acc p =>
      let a1 := arena_set_item acc mtx.col p.1 p.2.1
      let a2 := arena_set_item a1 mtx.row p.1 p.2.2.1
      arena_set_item a2 mtx.val p.1 p.2.2.2)
    a

/-- coo.c lines 147..200, `coo_matrix_load_from_file` after the banner and
size lines have been consumed by the external Matrix Market reader
(`m`, `n`, `is_real` and the `file.length = nz` parsed triples are its
outputs): initialize the COO struct, then run the read loop. -/
def coo_matrix_load_from_file (mtx0 : CooMatrixA) (m n : Nat) (is_real : Bool)
    (file : List (Int × Int × Int)) (arena : ArenaHandler) : ArenaHandler × CooMatrixA :=
  let p := prv_coo_matrix_init mtx0 m n file.length is_real arena
  (coo_load_loop p.2 file p.1, p.2)

/-- csr.c lines 162..193, `csr_matrix_from_coo` at handle level: copies the
scalar fields, copies `src->col` into `dest->col` and `src->val` into
`dest->val` (lines 171..172 — a handle copy, no array copy), allocates the
zeroed row_ptr object of `m + 1` cells, and runs the two loops (count per
row, then in-place running sum), all of whose stores go through the fresh
`dest->row` handle. -/
def csr_matrix_from_coo_arena (src : CooMatrixA) (arena : ArenaHandler) :
    ArenaHandler × CsrMatrixA :=
  let p := arena_calloc arena (src.m + 1)
  let dest : CsrMatrixA :=
    { m := src.m, n := src.n, nz := src.nz, is_real := src.is_real,
      col := src.col, val := src.val, row := p.2 }
  let a1 := (List.range src.nz).foldl
    (fun acc i =>
      let r := ((arena_get_ptr acc src.row).getD i 0 + 1).toNat
      arena_set_item acc dest.row r ((arena_get_ptr acc dest.row).getD r 0 + 1))
    p.1
  let a2 := (List.range src.m).foldl
    (fun acc i =>
      arena_set_item acc dest.row (i + 1)
        ((arena_get_ptr acc dest.row).getD (i + 1) 0 + (arena_get_ptr acc dest.row).getD i 0))
    a1
  (a2, dest)

/-! ### Concrete instances used by the claim theorems and witnesses -/

/-- A valid 2×2 integer COO matrix whose entries are not sorted by row
(file order: entry (row 1, col 1, 10) first, then (row 0, col 0, 20)). -/
def c1Coo : CooMatrix Int :=
  { m := 2, n := 2, nz := 2, is_real := false, row := [1, 0], col := [1, 0], val := [10, 20] }

/-- Body of a well-formed 1×1 integer Matrix Market file whose single data
line is `1 1 7` (row 1, col 1, value 7, 1-indexed). -/
def c2File : List (Int × Int × Int) := [(1, 1, 7)]

/-- The caller's uninitialized stack COO struct (`struct CooMatrix coo;` in
csr.c line 197): its handle fields hold indeterminate values, chosen 99. -/
def c2Mtx0 : CooMatrixA :=
  { m := 0, n := 0, nz := 0, is_real := false,
    col := { id := 99 }, row := { id := 99 }, val := { id := 99 } }

/-- Loading `c2File` into a fresh arena. -/
def c2Load : ArenaHandler × CooMatrixA :=
  coo_matrix_load_from_file c2Mtx0 1 1 false c2File { objs := [] }

/-- The 3×3 integer diagonal CSR matrix with entries (0,0,1), (1,1,2), (2,2,3). -/
def c3Mtx : CsrMatrix Int :=
  { m := 3, n := 3, nz := 3, is_real := false, row := [0, 1, 2, 3], col := [0, 1, 2], val := [1, 2, 3] }

/-- The all-ones integer vector of length 3. -/
def c3Vec : Vec Int :=
  { n := 3, is_real := false, val := [1, 1, 1] }

/-- A valid 2×2 integer COO matrix with 3 entries (one duplicate row). -/
def c5Coo : CooMatrix Int :=
  { m := 2, n := 2, nz := 3, is_real := false, row := [1, 0, 1], col := [0, 1, 1], val := [1, 2, 3] }

/-- A 1×1 integer CSR matrix. -/
def c6Mtx : CsrMatrix Int :=
  { m := 1, n := 1, nz := 1, is_real := false, row := [0, 1], col := [0], val := [2] }

/-- A length-1 integer vector, compatible with `c6Mtx`. -/
def c6Vec : Vec Int :=
  { n := 1, is_real := false, val := [3] }

/-- A length-1 result vector whose element-type flag says REAL although the
matrix and input vector are integer: only the flag differs. -/
def c6Result : Vec Int :=
  { n := 1, is_real := true, val := [0] }

/-- A length-2 integer vector, dimension-incompatible with `c6Mtx`. -/
def c6VecBad : Vec Int :=
  { n := 2, is_real := false, val := [3, 4] }

/-- A well-typed length-1 integer result vector. -/
def c6ResultOk : Vec Int :=
  { n := 1, is_real := false, val := [0] }

/-- An arena holding three one-cell objects, ids 0, 1 and 2. -/
def c9Arena : ArenaHandler := { objs := [[5], [6], [7]] }

/-- A handle-level 1×1 COO matrix whose three arrays are the objects of
`c9Arena`. -/
def c9Src : CooMatrixA :=
  { m := 1, n := 1, nz := 1, is_real := false,
    col := { id := 0 }, row := { id := 1 }, val := { id := 2 } }

/-! ### General helper lemmas -/

/-- A left fold that adds `f k` for `k` over `[a, a + len)` computes the sum
over that interval. -/
theorem foldl_add_eq_sum_Ico {α : Type} [AddCommMonoid α] (f : Nat → α) (len : Nat) :
    ∀ (a : Nat) (init : α),
      (List.range' a len).foldl (fun s k => s + f k) init
        = init + ∑ k ∈ Finset.Ico a (a + len), f k := by
  induction len with
  | zero => intro a init; simp
  | succ n ih =>
    intro a init
    rw [List.range'_succ, List.foldl_cons, ih (a + 1) (init + f a),
      Finset.sum_eq_sum_Ico_succ_bot (by omega : a < a + (n + 1)) f]
    have h : a + 1 + n = a + (n + 1) := by omega
    rw [h, add_assoc]

/-- Interval normalization for truncated subtraction of loop bounds. -/
theorem Ico_add_sub_eq (a b : Nat) : Finset.Ico a (a + (b - a)) = Finset.Ico a b := by
  rcases Nat.le_total a b with h | h
  · rw [Nat.add_sub_cancel' h]
  · rw [Nat.sub_eq_zero_of_le h, Nat.add_zero]
    rw [Finset.Ico_self]
    exact (Finset.Ico_eq_empty (by omega)).symm

/-- The ascending accumulation `for (k = a; k < b; ++k) sum += f k` starting
from zero equals the unordered sum over `Finset.Ico a b`. -/
theorem foldl_add_range_sub {α : Type} [AddCommMonoid α] (g : Nat → α) (a b : Nat) :
    (List.range' a (b - a)).foldl (fun s k => s + g k) 0 = ∑ k ∈ Finset.Ico a b, g k := by
  rw [foldl_add_eq_sum_Ico, Ico_add_sub_eq, zero_add]

/-- The serial and the OpenMP kernels agree on every matrix/vector pair over
any commutative additive monoid with a multiplication. -/
theorem spmv_serial_eq_omp_generic {α : Type} [AddCommMonoid α] [Mul α]
    (mtx : CsrMatrix α) (vec : Vec α) :
    prv_csr_matrix_mul_vec_serial mtx vec = prv_csr_matrix_mul_vec_omp mtx vec := by
  unfold prv_csr_matrix_mul_vec_serial prv_csr_matrix_mul_vec_omp
  exact List.map_congr_left fun i _ => foldl_add_range_sub _ _ _

/-- C4: On the same (matrix, vector) pair, the sequential and the
data-parallel (OpenMP) SpMV strategies produce identical result vectors —
for the integer element type (exactly) and for the real element type (in
the exact-arithmetic model of doubles, where equality in particular implies
agreement within any floating-point tolerance) — for every matrix and
vector, including matrices with 0 rows, 1 row, and rows with zero
non-zeros. -/
theorem spmv_serial_eq_omp :
    (∀ (mtx : CsrMatrix Int) (vec : Vec Int),
        prv_csr_matrix_mul_vec_serial mtx vec = prv_csr_matrix_mul_vec_omp mtx vec)
    ∧ (∀ (mtx : CsrMatrix Rat) (vec : Vec Rat),
        prv_csr_matrix_mul_vec_serial mtx vec = prv_csr_matrix_mul_vec_omp mtx vec) :=
  ⟨fun mtx vec => spmv_serial_eq_omp_generic mtx vec,
   fun mtx vec => spmv_serial_eq_omp_generic mtx vec⟩

/-- C3: For every CSR matrix and compatible vector, the sequential SpMV
kernel sets `result[i]` to `Σ values[k] * vector[col_idx[k]]` over `k` in
`[row_ptr[i], row_ptr[i+1])` (its accumulation runs over that range in
ascending `k` order, per the definition of the kernel), for each row
`i < rows`; a row with zero non-zeros (`row_ptr[i+1] = row_ptr[i]`) yields
exactly zero. -/
theorem spmv_serial_row_value {α : Type} [AddCommMonoid α] [Mul α]
    (mtx : CsrMatrix α) (vec : Vec α) (i : Nat) (hi : i < mtx.m) :
    (prv_csr_matrix_mul_vec_serial mtx vec).getD i 0
        = ∑ k ∈ Finset.Ico (mtx.row.getD i 0) (mtx.row.getD (i + 1) 0),
            mtx.val.getD k 0 * vec.val.getD (mtx.col.getD k 0) 0
    ∧ (mtx.row.getD (i + 1) 0 = mtx.row.getD i 0 →
        (prv_csr_matrix_mul_vec_serial mtx vec).getD i 0 = 0) := by
  have hmap : (prv_csr_matrix_mul_vec_serial mtx vec).getD i 0
      = (List.range' (mtx.row.getD i 0) (mtx.row.getD (i + 1) 0 - mtx.row.getD i 0)).foldl
          (fun sum k => sum + mtx.val.getD k 0 * vec.val.getD (mtx.col.getD k 0) 0) 0 := by
    unfold prv_csr_matrix_mul_vec_serial
    rw [List.getD_eq_getElem?_getD, List.getElem?_map, List.getElem?_range hi]
    rfl
  refine ⟨by rw [hmap, foldl_add_range_sub], fun h => ?_⟩
  rw [hmap, h, Nat.sub_self]
  rfl

/-- Witness for C3 at the concrete diagonal matrix `c3Mtx`, all-ones vector
and row 0. -/
theorem spmv_serial_row_value_witness :
    0 < c3Mtx.m
    ∧ ((prv_csr_matrix_mul_vec_serial c3Mtx c3Vec).getD 0 0
          = ∑ k ∈ Finset.Ico (c3Mtx.row.getD 0 0) (c3Mtx.row.getD (0 + 1) 0),
              c3Mtx.val.getD k 0 * c3Vec.val.getD (c3Mtx.col.getD k 0) 0
        ∧ (c3Mtx.row.getD (0 + 1) 0 = c3Mtx.row.getD 0 0 →
            (prv_csr_matrix_mul_vec_serial c3Mtx c3Vec).getD 0 0 = 0)) :=
  ⟨by decide, spmv_serial_row_value c3Mtx c3Vec 0 (by decide)⟩

/-- C1 is refuted by the code: `csr_matrix_from_coo` performs no scatter
pass, so on the valid but row-unsorted COO matrix `c1Coo` the conversion
produces correct row boundaries `row_ptr = [0, 1, 2]` while the column
array stays aliased to the COO file-order array; the slice
`col_idx[row_ptr[0] .. row_ptr[1])` is `[1]`, which is not the multiset
`{0}` of columns present in row 0 of the source. -/
theorem csr_from_coo_missing_scatter :
    ((csrColSlice (csr_matrix_from_coo c1Coo) 0 : List Nat) : Multiset Nat)
        ≠ ((cooRowCols c1Coo 0 : List Nat) : Multiset Nat)
    ∧ (csr_matrix_from_coo c1Coo).row = [0, 1, 2]
    ∧ (csr_matrix_from_coo c1Coo).col = c1Coo.col := by decide

/-! ### List lemmas for the row_ptr construction -/

/-- `getD` after `set` at the written index. -/
theorem getD_set_self {α : Type} (l : List α) (i : Nat) (v d : α) (h : i < l.length) :
    (l.set i v).getD i d = v := by
  rw [List.getD_eq_getElem?_getD, List.getElem?_set_self', List.getElem?_eq_getElem h]
  rfl

/-- `getD` after `set` at a different index. -/
theorem getD_set_ne {α : Type} (l : List α) (i k : Nat) (v d : α) (h : i ≠ k) :
    (l.set i v).getD k d = l.getD k d := by
  rw [List.getD_eq_getElem?_getD, List.getElem?_set_ne h, List.getD_eq_getElem?_getD]

/-- A fold over `List.range l.length` that reads `l.getD i 0` at step `i` is
the fold over the list itself. -/
theorem foldl_range_getD {β : Type} (g : β → Nat → β) :
    ∀ (l : List Nat) (init : β),
      (List.range l.length).foldl (fun acc i => g acc (l.getD i 0)) init = l.foldl g init := by
  intro l
  induction l with
  | nil => intro init; rfl
  | cons x xs ih =>
    intro init
    rw [List.length_cons, List.range_succ_eq_map, List.foldl_cons, List.foldl_map]
    simp only [List.getD_cons_succ, List.getD_cons_zero]
    exact ih (g init x)

/-- Incrementing entry `j` of a list (in bounds) adds one to its sum. -/
theorem sum_listIncr (l : List Nat) (j : Nat) (hj : j < l.length) :
    (listIncr l j).sum = l.sum + 1 := by
  unfold listIncr
  induction l generalizing j with
  | nil => simp at hj
  | cons x xs ih =>
    cases j with
    | zero => simp [List.getD_cons_zero]; omega
    | succ n =>
      have hn : n < xs.length := by simpa using hj
      show (x :: xs.set n (xs.getD n 0 + 1)).sum = (x :: xs).sum + 1
      rw [List.sum_cons, List.sum_cons, ih n hn]
      omega

/-- `listIncr` preserves the length. -/
theorem length_listIncr (l : List Nat) (j : Nat) : (listIncr l j).length = l.length := by
  simp [listIncr]

/-- `listIncr` at a positive index leaves entry 0 unchanged. -/
theorem getD_zero_listIncr (l : List Nat) (j : Nat) (hj : j ≠ 0) :
    (listIncr l j).getD 0 0 = l.getD 0 0 :=
  getD_set_ne l j 0 _ 0 hj

/-- The counting fold preserves the length of the tally array. -/
theorem countFold_length :
    ∀ (l : List Nat) (init : List Nat),
      (l.foldl (fun acc r => listIncr acc (r + 1)) init).length = init.length := by
  intro l
  induction l with
  | nil => intro init; rfl
  | cons x xs ih =>
    intro init
    rw [List.foldl_cons, ih]
    exact length_listIncr init (x + 1)

/-- The counting fold never writes entry 0 of the tally array. -/
theorem countFold_getD_zero :
    ∀ (l : List Nat) (init : List Nat),
      (l.foldl (fun acc r => listIncr acc (r + 1)) init).getD 0 0 = init.getD 0 0 := by
  intro l
  induction l with
  | nil => intro init; rfl
  | cons x xs ih =>
    intro init
    rw [List.foldl_cons, ih]
    exact getD_zero_listIncr init (x + 1) (by omega)

/-- Each pass of the counting fold whose target index is in bounds adds one
to the total tally. -/
theorem countFold_sum :
    ∀ (l : List Nat) (init : List Nat), (∀ r ∈ l, r + 1 < init.length) →
      (l.foldl (fun acc r => listIncr acc (r + 1)) init).sum = init.sum + l.length := by
  intro l
  induction l with
  | nil => intro init _; rfl
  | cons x xs ih =>
    intro init hb
    rw [List.foldl_cons,
      ih (listIncr init (x + 1))
        (fun r hr => by rw [length_listIncr]; exact hb r (List.mem_cons_of_mem x hr)),
      sum_listIncr init (x + 1) (hb x (List.mem_cons_self x xs))]
    rw [List.length_cons]
    omega

/-- Summing `getD` over all positions of a list gives its sum. -/
theorem sum_range_getD (l : List Nat) :
    ∑ t ∈ Finset.range l.length, l.getD t 0 = l.sum := by
  induction l with
  | nil => rfl
  | cons x xs ih =>
    rw [List.length_cons, Finset.sum_range_succ']
    simp only [List.getD_cons_succ, List.getD_cons_zero]
    rw [ih, List.sum_cons]
    omega

/-- Summing `getD` over a range known to be the list's length gives its sum. -/
theorem sum_range_getD_of_len (l : List Nat) (n : Nat) (h : l.length = n) :
    ∑ t ∈ Finset.range n, l.getD t 0 = l.sum := by
  subst h
  exact sum_range_getD l

/-- Characterization of the in-place running-sum loop of csr.c lines
189..190: after `c` iterations, entry `j ≤ c` holds the sum of the first
`j + 1` tallies and entries beyond `c` are untouched. -/
theorem csrScanLoop_spec (l : List Nat) :
    ∀ c : Nat, c + 1 ≤ l.length →
      (csrScanLoop c l).length = l.length
      ∧ (∀ j, j ≤ c → (csrScanLoop c l).getD j 0 = ∑ t ∈ Finset.range (j + 1), l.getD t 0)
      ∧ (∀ j, c < j → (csrScanLoop c l).getD j 0 = l.getD j 0) := by
  intro c
  induction c with
  | zero =>
    intro _
    refine ⟨rfl, ?_, fun j _ => rfl⟩
    intro j hj
    have hj0 : j = 0 := by omega
    subst hj0
    rw [Finset.sum_range_one]
    rfl
  | succ n ih =>
    intro hc
    obtain ⟨hlen, hin, hout⟩ := ih (by omega)
    have hstep : csrScanLoop (n + 1) l
        = (csrScanLoop n l).set (n + 1)
            ((csrScanLoop n l).getD (n + 1) 0 + (csrScanLoop n l).getD n 0) := by
      unfold csrScanLoop
      rw [List.range_succ, List.foldl_append, List.foldl_cons, List.foldl_nil]
    refine ⟨by rw [hstep, List.length_set]; exact hlen, ?_, ?_⟩
    · intro j hj
      rcases Nat.lt_or_ge j (n + 1) with hlt | hge
      · rw [hstep, getD_set_ne _ _ _ _ _ (by omega)]
        exact hin j (by omega)
      · have hj1 : j = n + 1 := by omega
        subst hj1
        rw [hstep, getD_set_self _ _ _ _ (by rw [hlen]; omega)]
        rw [hout (n + 1) (by omega), hin n (le_refl n),
          Finset.sum_range_succ (fun t => l.getD t 0) (n + 1)]
        omega
    · intro j hj
      rw [hstep, getD_set_ne _ _ _ _ _ (by omega)]
      exact hout j (by omega)

/-- C5: For every COO matrix satisfying the COO invariant (row-index array
of length nnz with every row index in `[0, rows)`), the row_ptr array built
by `csr_matrix_from_coo` satisfies `row_ptr[0] = 0`, `row_ptr[rows] = nnz`,
and is non-decreasing. -/
theorem csr_from_coo_row_ptr_invariants {α : Type} (src : CooMatrix α)
    (hlen : src.row.length = src.nz) (hrows : ∀ r ∈ src.row, r < src.m) :
    (csr_matrix_from_coo src).row.getD 0 0 = 0
    ∧ (csr_matrix_from_coo src).row.getD src.m 0 = src.nz
    ∧ (∀ i j, i ≤ j → j ≤ src.m →
        (csr_matrix_from_coo src).row.getD i 0 ≤ (csr_matrix_from_coo src).row.getD j 0) := by
  have hrow : (csr_matrix_from_coo src).row
      = csrScanLoop src.m (csrCountLoop src.row src.nz (List.replicate (src.m + 1) 0)) := rfl
  have hbridge : csrCountLoop src.row src.nz (List.replicate (src.m + 1) 0)
      = src.row.foldl (fun acc r => listIncr acc (r + 1)) (List.replicate (src.m + 1) 0) := by
    rw [← hlen]
    exact foldl_range_getD (fun acc r => listIncr acc (r + 1)) src.row _
  have hl : (csrCountLoop src.row src.nz (List.replicate (src.m + 1) 0)).length
      = src.m + 1 := by
    rw [hbridge, countFold_length]
    exact List.length_replicate (src.m + 1) 0
  have h0 : (csrCountLoop src.row src.nz (List.replicate (src.m + 1) 0)).getD 0 0 = 0 := by
    rw [hbridge, countFold_getD_zero, List.replicate_succ]
    rfl
  have hs : (csrCountLoop src.row src.nz (List.replicate (src.m + 1) 0)).sum = src.nz := by
    rw [hbridge,
      countFold_sum src.row (List.replicate (src.m + 1) 0)
        (fun r hr => by rw [List.length_replicate]; exact Nat.add_lt_add_right (hrows r hr) 1),
      hlen]
    simp
  obtain ⟨hslen, hsin, _⟩ :=
    csrScanLoop_spec (csrCountLoop src.row src.nz (List.replicate (src.m + 1) 0)) src.m
      (le_of_eq hl.symm)
  refine ⟨?_, ?_, ?_⟩
  · rw [hrow, hsin 0 (Nat.zero_le src.m), Finset.sum_range_one, h0]
  · rw [hrow, hsin src.m (le_refl src.m), sum_range_getD_of_len _ _ hl, hs]
  · intro i j hij hjm
    rw [hrow, hsin i (le_trans hij hjm), hsin j hjm]
    exact Finset.sum_le_sum_of_subset (Finset.range_subset.mpr (by omega))

/-- Witness for C5 at the concrete valid COO matrix `c5Coo`. -/
theorem csr_from_coo_row_ptr_invariants_witness :
    (c5Coo.row.length = c5Coo.nz ∧ ∀ r ∈ c5Coo.row, r < c5Coo.m)
    ∧ (csr_matrix_from_coo c5Coo).row.getD 0 0 = 0
    ∧ (csr_matrix_from_coo c5Coo).row.getD c5Coo.m 0 = c5Coo.nz
    ∧ (csr_matrix_from_coo c5Coo).row.getD 1 0 ≤ (csr_matrix_from_coo c5Coo).row.getD 2 0 :=
  ⟨⟨by decide, by decide⟩,
    (csr_from_coo_row_ptr_invariants c5Coo (by decide) (by decide)).1,
    (csr_from_coo_row_ptr_invariants c5Coo (by decide) (by decide)).2.1,
    (csr_from_coo_row_ptr_invariants c5Coo (by decide) (by decide)).2.2 1 2
      (by decide) (by decide)⟩

/-- C6 is refuted as stated: with matrix and input vector fully compatible
but a result vector whose element-type flag is REAL while the matrix is
integer (`c6Result.is_real ≠ c6Mtx.is_real`), `csr_matrix_mul_vec` does not
return an error — it returns `RC_OK` and overwrites the result vector,
because the source checks `mtx->n == vec->n`, `mtx->is_real == vec->is_real`
and `vec_size(result) == m` but never `result->is_real`. -/
theorem csr_mul_vec_result_flag_not_checked :
    (csr_matrix_mul_vec c6Mtx c6Vec c6Result).1 = RC_OK
    ∧ (csr_matrix_mul_vec c6Mtx c6Vec c6Result).2 ≠ c6Result := by decide

/-- C6 amended: whenever `csr_matrix_mul_vec` is called with
`matrix.cols ≠ vector.length`, or with matrix/vector element-type flags
mismatched, or with `result.length ≠ matrix.rows`, it returns the
incompatible-operands error (`RC_INVALID_ARG_ERR`) before performing any
computation and leaves the result vector completely unchanged; the result
vector's own element-type flag is not among the checked conditions. -/
theorem csr_mul_vec_rejects_incompatible {α : Type} [AddCommMonoid α] [Mul α]
    (mtx : CsrMatrix α) (vec result : Vec α)
    (h : mtx.n ≠ vec.n ∨ mtx.is_real ≠ vec.is_real ∨ result.n ≠ mtx.m) :
    csr_matrix_mul_vec mtx vec result = (RC_INVALID_ARG_ERR, result) := by
  unfold csr_matrix_mul_vec
  by_cases hc : prv_csr_matrix_is_compatible_with_vec mtx vec = false
  · rw [if_pos hc]
  · have hcomp : mtx.n = vec.n ∧ mtx.is_real = vec.is_real := by
      have ht : prv_csr_matrix_is_compatible_with_vec mtx vec = true := by
        cases hb : prv_csr_matrix_is_compatible_with_vec mtx vec
        · exact absurd hb hc
        · rfl
      unfold prv_csr_matrix_is_compatible_with_vec at ht
      simpa using ht
    have hr : result.n ≠ mtx.m := by
      rcases h with h | h | h
      · exact absurd hcomp.1 h
      · exact absurd hcomp.2 h
      · exact h
    rw [if_neg hc, if_pos]
    show (vec_size result : Int) ≠ (mtx.m : Int)
    unfold vec_size
    exact_mod_cast hr

/-- Witness for the amended C6 at a concrete dimension mismatch
(`c6Mtx.n = 1`, `c6VecBad.n = 2`). -/
theorem csr_mul_vec_rejects_incompatible_witness :
    (c6Mtx.n ≠ c6VecBad.n ∨ c6Mtx.is_real ≠ c6VecBad.is_real ∨ c6ResultOk.n ≠ c6Mtx.m)
    ∧ csr_matrix_mul_vec c6Mtx c6VecBad c6ResultOk = (RC_INVALID_ARG_ERR, c6ResultOk) :=
  ⟨by decide, csr_mul_vec_rejects_incompatible c6Mtx c6VecBad c6ResultOk (by decide)⟩

/-- C2 is refuted by the code, evaluated at the 1×1 file with the single
1-indexed line `1 1 7` loaded into a fresh arena: the loader performs three
allocations but binds the third to the ROW handle (object id 2) instead of
the value handle, leaving `val` at the caller's garbage id 99 — the value
array is never allocated; and the column cell receives the file's FIRST
number un-decremented (`1`, instead of `col - 1 = 0`), the row cell the
SECOND (`1`, instead of `row - 1 = 0`). -/
theorem coo_load_from_file_diverges :
    c2Load.2.val = { id := 99 }
    ∧ c2Load.2.row = { id := 2 }
    ∧ c2Load.2.col = { id := 0 }
    ∧ c2Load.1.objs.length = 3
    ∧ arena_get_ptr c2Load.1 c2Load.2.col = [1]
    ∧ arena_get_ptr c2Load.1 c2Load.2.row = [1]
    ∧ (1 : Int) ≠ 1 - 1 := by decide

/-! ### Lemmas for the benchmark harness -/

/-- A fold whose body ignores the list elements returns its initial value. -/
theorem foldl_keep_init {β γ : Type} (l : List β) (init : γ) :
    l.foldl (fun acc _ => acc) init = init := by
  induction l generalizing init with
  | nil => rfl
  | cons x xs ih => exact ih init

/-- `GET_MIN` is bounded by its first argument. -/
theorem GET_MIN_le_left (x y : Nat) : GET_MIN x y ≤ x := by
  unfold GET_MIN
  split <;> omega

/-- `GET_MIN` is bounded by its second argument. -/
theorem GET_MIN_le_right (x y : Nat) : GET_MIN x y ≤ y := by
  unfold GET_MIN
  split <;> omega

/-- `GET_MAX` dominates its first argument. -/
theorem le_GET_MAX_left (x y : Nat) : x ≤ GET_MAX x y := by
  unfold GET_MAX
  split <;> omega

/-- `GET_MAX` dominates its second argument. -/
theorem le_GET_MAX_right (x y : Nat) : y ≤ GET_MAX x y := by
  unfold GET_MAX
  split <;> omega

/-- The running minimum is bounded by its seed. -/
theorem foldl_GET_MIN_le_init (l : List Nat) : ∀ mn, l.foldl GET_MIN mn ≤ mn := by
  induction l with
  | nil => intro mn; exact le_refl mn
  | cons x xs ih =>
    intro mn
    exact le_trans (ih (GET_MIN mn x)) (GET_MIN_le_left mn x)

/-- The running minimum is bounded by every element. -/
theorem foldl_GET_MIN_le_mem (l : List Nat) : ∀ mn x, x ∈ l → l.foldl GET_MIN mn ≤ x := by
  induction l with
  | nil => intro mn x hx; simp at hx
  | cons y ys ih =>
    intro mn x hx
    rcases List.mem_cons.mp hx with rfl | hx
    · exact le_trans (foldl_GET_MIN_le_init ys (GET_MIN mn x)) (GET_MIN_le_right mn x)
    · exact ih (GET_MIN mn y) x hx

/-- The running maximum dominates every element. -/
theorem le_foldl_GET_MAX_mem (l : List Nat) : ∀ mx x, x ∈ l → x ≤ l.foldl GET_MAX mx := by
  induction l with
  | nil => intro mx x hx; simp at hx
  | cons y ys ih =>
    intro mx x hx
    have hseed : ∀ m : Nat, m ≤ GET_MAX mx y → m ≤ ys.foldl GET_MAX (GET_MAX mx y) := by
      intro m hm
      have : ∀ (zs : List Nat) (a b : Nat), a ≤ b → a ≤ zs.foldl GET_MAX b := by
        intro zs
        induction zs with
        | nil => intro a b hab; exact hab
        | cons z zt iht =>
          intro a b hab
          exact iht a (GET_MAX b z) (le_trans hab (le_GET_MAX_left b z))
      exact this ys m (GET_MAX mx y) hm
    rcases List.mem_cons.mp hx with rfl | hx
    · exact hseed x (le_GET_MAX_right mx x)
    · exact ih (GET_MAX mx y) x hx

/-- A list of elements all at least `m` sums to at least `length * m`. -/
theorem length_mul_le_sum (l : List Nat) (m : Nat) (h : ∀ x ∈ l, m ≤ x) :
    l.length * m ≤ l.sum := by
  induction l with
  | nil => simp
  | cons x xs ih =>
    rw [List.length_cons, List.sum_cons, Nat.succ_mul]
    have h1 := h x (List.mem_cons_self x xs)
    have h2 := ih (fun y hy => h y (List.mem_cons_of_mem x hy))
    omega

/-- A list of elements all at most `M` sums to at most `length * M`. -/
theorem sum_le_length_mul (l : List Nat) (M : Nat) (h : ∀ x ∈ l, x ≤ M) :
    l.sum ≤ l.length * M := by
  induction l with
  | nil => simp
  | cons x xs ih =>
    rw [List.length_cons, List.sum_cons, Nat.succ_mul]
    have h1 := h x (List.mem_cons_self x xs)
    have h2 := ih (fun y hy => h y (List.mem_cons_of_mem x hy))
    omega

/-- An accumulating fold is the sum of the mapped list. -/
theorem foldl_add_apply {β : Type} (f : β → Nat) (l : List β) :
    ∀ init : Nat, l.foldl (fun acc s => acc + f s) init = init + (l.map f).sum := by
  induction l with
  | nil => intro init; simp
  | cons x xs ih =>
    intro init
    rw [List.foldl_cons, ih (init + f x), List.map_cons, List.sum_cons]
    omega

/-- When the kernel succeeds on every run, the timed loop of `bench_run`
collects exactly the durations of runs `i, i+1, ..., i+c-1`, accumulates
their sum and folds the running min/max. -/
theorem bench_run_loop_all_ok (kernel : Nat → Int) (dur : Nat → Nat)
    (hk : ∀ i, kernel i = RC_OK) :
    ∀ (c i : Nat) (samps : List Nat) (sum mn mx : Nat),
      bench_run_loop kernel dur i c (samps, sum, mn, mx)
        = .ok (samps ++ (List.range' i c).map dur,
               sum + ((List.range' i c).map dur).sum,
               ((List.range' i c).map dur).foldl GET_MIN mn,
               ((List.range' i c).map dur).foldl GET_MAX mx) := by
  intro c
  induction c with
  | zero =>
    intro i samps sum mn mx
    simp [bench_run_loop]
  | succ n ih =>
    intro i samps sum mn mx
    simp only [bench_run_loop, hk i, if_pos]
    rw [ih (i + 1), List.range'_succ]
    simp [List.append_assoc, Nat.add_assoc]

/-- If the kernel first fails on run `i + j` (with `j` inside the run
count), the timed loop stops there and returns that code. -/
theorem bench_run_loop_first_failure (kernel : Nat → Int) (dur : Nat → Nat) :
    ∀ (j c i : Nat) (samps : List Nat) (sum mn mx : Nat),
      j < c → kernel (i + j) ≠ RC_OK → (∀ t, t < j → kernel (i + t) = RC_OK) →
      ∃ st, bench_run_loop kernel dur i c (samps, sum, mn, mx)
          = .error (kernel (i + j), st) := by
  intro j
  induction j with
  | zero =>
    intro c i samps sum mn mx hjc hfail _
    cases c with
    | zero => omega
    | succ n =>
      rw [Nat.add_zero] at hfail ⊢
      simp only [bench_run_loop]
      rw [if_neg hfail]
      exact ⟨_, rfl⟩
  | succ m ih =>
    intro c i samps sum mn mx hjc hfail hpre
    cases c with
    | zero => omega
    | succ n =>
      have h0 : kernel i = RC_OK := by
        have h := hpre 0 (by omega)
        rwa [Nat.add_zero] at h
      simp only [bench_run_loop, h0, if_pos]
      have harg : i + (m + 1) = i + 1 + m := by omega
      rw [harg] at hfail ⊢
      exact ih n (i + 1) _ _ _ _ (by omega) hfail
        (fun t ht => by
          have h := hpre (t + 1) (by omega)
          rwa [show i + (t + 1) = i + 1 + t by omega] at h)

/-- C7: For every benchmark execution with a non-empty sample set
(`runs ≥ 1`) in which the kernel succeeds, `bench_run` computes
`mean = sum / runs` and the population standard deviation
`stddev = sqrt(Σ(sample − mean)² / runs)` (in the exact unsigned-integer
semantics of the source, i.e. truncated division and truncated square
root), and the statistics satisfy `min ≤ mean ≤ max` and `stddev ≥ 0`;
when every measured duration equals a constant `v`, `mean = v` and
`stddev = 0`. -/
theorem bench_run_statistics (w runs : Nat) (kernel : Nat → Int) (dur : Nat → Nat)
    (hr : 1 ≤ runs) (hk : ∀ i, kernel i = RC_OK) :
    ∃ r : BenchResults,
      bench_run w runs kernel dur = some (RC_OK, r)
      ∧ r.samples = (List.range runs).map dur
      ∧ r.mean = r.samples.sum / runs
      ∧ r.stddev = Nat.sqrt
          ((r.samples.map (fun (s : Nat) =>
              (((s : Int) - (r.mean : Int)) * ((s : Int) - (r.mean : Int))).toNat)).sum / runs)
      ∧ r.min ≤ r.mean
      ∧ r.mean ≤ r.max
      ∧ (0 : Nat) ≤ r.stddev
      ∧ (∀ v, (∀ i, i < runs → dur i = v) → r.mean = v ∧ r.stddev = 0) := by
  have hloop := bench_run_loop_all_ok kernel dur hk runs 0 [] 0 U64_MAX 0
  rw [← List.range_eq_range'] at hloop
  have hlen : ((List.range runs).map dur).length = runs := by
    rw [List.length_map, List.length_range]
  refine ⟨{ warmup_iters := w, runs := runs,
            samples := (List.range runs).map dur,
            mean := ((List.range runs).map dur).sum / runs,
            stddev := prv_bench_compute_stddev ((List.range runs).map dur) runs
              (((List.range runs).map dur).sum / runs),
            min := ((List.range runs).map dur).foldl GET_MIN U64_MAX,
            max := ((List.range runs).map dur).foldl GET_MAX 0 },
    ?_, rfl, rfl, ?_, ?_, ?_, Nat.zero_le _, ?_⟩
  · have h0 : ¬ runs = 0 := by omega
    simp [bench_run, hloop, h0]
  · show prv_bench_compute_stddev ((List.range runs).map dur) runs
        (((List.range runs).map dur).sum / runs) = _
    unfold prv_bench_compute_stddev
    rw [foldl_add_apply, Nat.zero_add]
  · show ((List.range runs).map dur).foldl GET_MIN U64_MAX
        ≤ ((List.range runs).map dur).sum / runs
    rw [Nat.le_div_iff_mul_le (by omega : 0 < runs)]
    calc ((List.range runs).map dur).foldl GET_MIN U64_MAX * runs
        = ((List.range runs).map dur).length
            * (((List.range runs).map dur).foldl GET_MIN U64_MAX) := by
          rw [hlen, Nat.mul_comm]
      _ ≤ ((List.range runs).map dur).sum :=
          length_mul_le_sum _ _ (fun x hx => foldl_GET_MIN_le_mem _ _ x hx)
  · show ((List.range runs).map dur).sum / runs ≤ ((List.range runs).map dur).foldl GET_MAX 0
    have hsum : ((List.range runs).map dur).sum
        ≤ runs * (((List.range runs).map dur).foldl GET_MAX 0) := by
      have h := sum_le_length_mul ((List.range runs).map dur)
        (((List.range runs).map dur).foldl GET_MAX 0)
        (fun x hx => le_foldl_GET_MAX_mem _ _ x hx)
      rwa [hlen] at h
    calc ((List.range runs).map dur).sum / runs
        ≤ runs * (((List.range runs).map dur).foldl GET_MAX 0) / runs :=
          Nat.div_le_div_right hsum
      _ = ((List.range runs).map dur).foldl GET_MAX 0 :=
          Nat.mul_div_cancel_left _ (by omega)
  · intro v hv
    have hrep : (List.range runs).map dur = List.replicate runs v := by
      rw [List.eq_replicate_iff]
      constructor
      · exact hlen
      · intro b hb
        obtain ⟨i, hi, hib⟩ := List.mem_map.mp hb
        rw [← hib]
        exact hv i (List.mem_range.mp hi)
    have hsum : ((List.range runs).map dur).sum = runs * v := by
      rw [hrep, List.sum_replicate, smul_eq_mul]
    have hmean : ((List.range runs).map dur).sum / runs = v := by
      rw [hsum, Nat.mul_div_cancel_left _ (by omega : 0 < runs)]
    refine ⟨hmean, ?_⟩
    show prv_bench_compute_stddev ((List.range runs).map dur) runs
        (((List.range runs).map dur).sum / runs) = 0
    unfold prv_bench_compute_stddev
    rw [foldl_add_apply, hmean, hrep, List.map_replicate]
    simp

/-- Witness for C7: two runs, all-succeeding kernel, constant 5 µs
duration. -/
theorem bench_run_statistics_witness :
    (1 ≤ 2 ∧ ∀ i : Nat, (fun _ : Nat => RC_OK) i = RC_OK)
    ∧ ∃ r : BenchResults,
        bench_run 0 2 (fun _ => RC_OK) (fun _ => 5) = some (RC_OK, r)
        ∧ r.samples = (List.range 2).map (fun _ => 5)
        ∧ r.mean = r.samples.sum / 2
        ∧ r.stddev = Nat.sqrt
            ((r.samples.map (fun (s : Nat) =>
                (((s : Int) - (r.mean : Int)) * ((s : Int) - (r.mean : Int))).toNat)).sum / 2)
        ∧ r.min ≤ r.mean
        ∧ r.mean ≤ r.max
        ∧ (0 : Nat) ≤ r.stddev
        ∧ (∀ v, (∀ i, i < 2 → (fun _ : Nat => (5 : Nat)) i = v) → r.mean = v ∧ r.stddev = 0) :=
  ⟨⟨by omega, fun _ => rfl⟩,
    bench_run_statistics 0 2 (fun _ => RC_OK) (fun _ => 5) (by omega) (fun _ => rfl)⟩

/-- C8 is refuted as stated for the warm-up phase: with one warm-up
iteration and a kernel that fails with `RC_INVALID_ARG_ERR`, `bench_warmup`
still returns `RC_OK` instead of the kernel's error kind, because the
source discards the kernel's return value in the warm-up loop. -/
theorem bench_warmup_ignores_kernel_failure :
    bench_warmup 1 (fun _ => RC_INVALID_ARG_ERR) = RC_OK
    ∧ RC_INVALID_ARG_ERR ≠ RC_OK := by decide

/-- C8 amended: if the SpMV kernel fails during a timed run, `bench_run`
aborts immediately and returns that kernel's error kind unchanged rather
than completing the remaining iterations or returning statistics;
`bench_warmup`, however, ignores kernel failures and always returns
`RC_OK`. -/
theorem bench_run_aborts_on_kernel_failure (w runs j : Nat) (kernel : Nat → Int)
    (dur : Nat → Nat) (hj : j < runs) (hfail : kernel j ≠ RC_OK)
    (hpre : ∀ t, t < j → kernel t = RC_OK) :
    (∃ r : BenchResults, bench_run w runs kernel dur = some (kernel j, r))
    ∧ bench_warmup w kernel = RC_OK := by
  constructor
  · obtain ⟨st, hst⟩ := bench_run_loop_first_failure kernel dur j runs 0 [] 0 U64_MAX 0 hj
      (by rwa [Nat.zero_add]) (fun t ht => by rw [Nat.zero_add]; exact hpre t ht)
    rw [Nat.zero_add] at hst
    unfold bench_run
    rw [hst]
    obtain ⟨s1, s2, s3, s4⟩ := st
    exact ⟨_, rfl⟩
  · exact foldl_keep_init _ _

/-- Witness for the amended C8: two runs, kernel failing from run 0 with
`RC_FAIL`. -/
theorem bench_run_aborts_on_kernel_failure_witness :
    ((0 : Nat) < 2 ∧ (fun _ : Nat => RC_FAIL) 0 ≠ RC_OK)
    ∧ (∃ r : BenchResults,
        bench_run 1 2 (fun _ => RC_FAIL) (fun _ => 1) = some ((fun _ : Nat => RC_FAIL) 0, r))
    ∧ bench_warmup 1 (fun _ => RC_FAIL) = RC_OK :=
  ⟨⟨by omega, by decide⟩,
    (bench_run_aborts_on_kernel_failure 1 2 0 (fun _ => RC_FAIL) (fun _ => 1) (by omega)
        (by decide) (fun t ht => absurd ht (Nat.not_lt_zero t))).1,
    (bench_run_aborts_on_kernel_failure 1 2 0 (fun _ => RC_FAIL) (fun _ => 1) (by omega)
        (by decide) (fun t ht => absurd ht (Nat.not_lt_zero t))).2⟩

/-- C10: the CLI accepts a run count of 0 (cli.c rejects only negative
values), and with `runs = 0` `bench_run` reaches undefined behaviour — the
unguarded integer division `mean /= runs` by zero (embedded as `none`;
there is no error-returning branch for this case, for any kernel and any
timing), and `bench_save_result` reads `samples[0]` of the empty samples
array, an out-of-bounds access (again `none`). -/
theorem bench_run_zero_runs_unguarded :
    cli_runs_accepted 0 = true
    ∧ (∀ (w : Nat) (kernel : Nat → Int) (dur : Nat → Nat), bench_run w 0 kernel dur = none)
    ∧ bench_save_samples 0 [] = none :=
  ⟨rfl, fun _ _ _ => rfl, rfl⟩

/-! ### Lemmas about the arena model -/

/-- A store through one handle does not change what a distinct handle
refers to. -/
theorem arena_get_set_ne (a : ArenaHandler) (h h2 : ArenaObj) (i : Nat) (v : Int)
    (hne : h2.id ≠ h.id) :
    arena_get_ptr (arena_set_item a h i v) h2 = arena_get_ptr a h2 := by
  unfold arena_get_ptr arena_set_item
  exact getD_set_ne a.objs h.id h2.id _ [] (fun he => hne he.symm)

/-- A store through a live handle updates the cell it refers to. -/
theorem arena_get_set_self (a : ArenaHandler) (h : ArenaObj) (i : Nat) (v : Int)
    (hh : h.id < a.objs.length) :
    arena_get_ptr (arena_set_item a h i v) h = (arena_get_ptr a h).set i v := by
  unfold arena_get_ptr arena_set_item
  exact getD_set_self a.objs h.id _ [] hh

/-- A store preserves the number of allocated objects. -/
theorem arena_set_item_length (a : ArenaHandler) (h : ArenaObj) (i : Nat) (v : Int) :
    (arena_set_item a h i v).objs.length = a.objs.length := by
  unfold arena_set_item
  exact List.length_set a.objs h.id _

/-- Allocation does not change what a live handle refers to. -/
theorem arena_get_calloc (a : ArenaHandler) (c : Nat) (h : ArenaObj)
    (hh : h.id < a.objs.length) :
    arena_get_ptr (arena_calloc a c).1 h = arena_get_ptr a h := by
  show (a.objs ++ [List.replicate c 0]).getD h.id [] = a.objs.getD h.id []
  rw [List.getD_eq_getElem?_getD, List.getElem?_append, if_pos hh, ← List.getD_eq_getElem?_getD]

/-- A fold whose every step preserves what `h2` refers to preserves it. -/
theorem foldl_preserves_get {β : Type} (F : ArenaHandler → β → ArenaHandler) (h2 : ArenaObj)
    (hF : ∀ a b, arena_get_ptr (F a b) h2 = arena_get_ptr a h2) :
    ∀ (steps : List β) (a : ArenaHandler),
      arena_get_ptr (steps.foldl F a) h2 = arena_get_ptr a h2 := by
  intro steps
  induction steps with
  | nil => intro a; rfl
  | cons x xs ih =>
    intro a
    rw [List.foldl_cons, ih, hF]

/-- A fold whose every step preserves the object count preserves it. -/
theorem foldl_preserves_len {β : Type} (F : ArenaHandler → β → ArenaHandler)
    (hF : ∀ a b, (F a b).objs.length = a.objs.length) :
    ∀ (steps : List β) (a : ArenaHandler),
      (steps.foldl F a).objs.length = a.objs.length := by
  intro steps
  induction steps with
  | nil => intro a; rfl
  | cons x xs ih =>
    intro a
    rw [List.foldl_cons, ih, hF]

/-- C9: `csr_matrix_from_coo` does not copy the column-index or value
arrays: the destination CSR matrix's `col` and `val` handles are the very
same arena objects as the source COO matrix's (the conversion's only stores
go through the freshly allocated row_ptr object, so after conversion both
matrices see the COO storage unchanged, in original file order), and a
mutation performed through the CSR matrix's column handle is visible when
reading through the COO matrix's column handle. -/
theorem csr_from_coo_aliases_storage (src : CooMatrixA) (arena : ArenaHandler)
    (hcol : src.col.id < arena.objs.length) (hval : src.val.id < arena.objs.length) :
    (csr_matrix_from_coo_arena src arena).2.col = src.col
    ∧ (csr_matrix_from_coo_arena src arena).2.val = src.val
    ∧ arena_get_ptr (csr_matrix_from_coo_arena src arena).1
          (csr_matrix_from_coo_arena src arena).2.col
        = arena_get_ptr arena src.col
    ∧ arena_get_ptr (csr_matrix_from_coo_arena src arena).1
          (csr_matrix_from_coo_arena src arena).2.val
        = arena_get_ptr arena src.val
    ∧ ∀ i v,
        arena_get_ptr
            (arena_set_item (csr_matrix_from_coo_arena src arena).1
              (csr_matrix_from_coo_arena src arena).2.col i v)
            src.col
          = (arena_get_ptr (csr_matrix_from_coo_arena src arena).1 src.col).set i v := by
  have hpres : ∀ h2 : ArenaObj, h2.id < arena.objs.length →
      arena_get_ptr (csr_matrix_from_coo_arena src arena).1 h2 = arena_get_ptr arena h2 := by
    intro h2 hh2
    have hne : h2.id ≠ (arena_calloc arena (src.m + 1)).2.id := by
      show h2.id ≠ arena.objs.length
      omega
    refine Eq.trans (foldl_preserves_get _ h2
      (fun a b => arena_get_set_ne _ _ _ _ _ hne) _ _) ?_
    refine Eq.trans (foldl_preserves_get _ h2
      (fun a b => arena_get_set_ne _ _ _ _ _ hne) _ _) ?_
    exact arena_get_calloc arena (src.m + 1) h2 hh2
  have hlen2 : (csr_matrix_from_coo_arena src arena).1.objs.length
      = arena.objs.length + 1 := by
    refine Eq.trans (foldl_preserves_len _
      (fun a b => arena_set_item_length _ _ _ _) _ _) ?_
    refine Eq.trans (foldl_preserves_len _
      (fun a b => arena_set_item_length _ _ _ _) _ _) ?_
    show (arena_calloc arena (src.m + 1)).1.objs.length = arena.objs.length + 1
    unfold arena_calloc
    simp
  refine ⟨rfl, rfl, hpres src.col hcol, hpres src.val hval, ?_⟩
  intro i v
  exact arena_get_set_self _ src.col i v (by rw [hlen2]; omega)

/-- Witness for C9: the conversion applied to `c9Src` inside `c9Arena`,
with the mutation conjunct instantiated at index 0, value 9. -/
theorem csr_from_coo_aliases_storage_witness :
    (c9Src.col.id < c9Arena.objs.length ∧ c9Src.val.id < c9Arena.objs.length)
    ∧ (csr_matrix_from_coo_arena c9Src c9Arena).2.col = c9Src.col
    ∧ (csr_matrix_from_coo_arena c9Src c9Arena).2.val = c9Src.val
    ∧ arena_get_ptr (csr_matrix_from_coo_arena c9Src c9Arena).1
          (csr_matrix_from_coo_arena c9Src c9Arena).2.col
        = arena_get_ptr c9Arena c9Src.col
    ∧ arena_get_ptr
          (arena_set_item (csr_matrix_from_coo_arena c9Src c9Arena).1
            (csr_matrix_from_coo_arena c9Src c9Arena).2.col 0 9)
          c9Src.col
        = (arena_get_ptr (csr_matrix_from_coo_arena c9Src c9Arena).1 c9Src.col).set 0 9 :=
  ⟨⟨by decide, by decide⟩,
    (csr_from_coo_aliases_storage c9Src c9Arena (by decide) (by decide)).1,
    (csr_from_coo_aliases_storage c9Src c9Arena (by decide) (by decide)).2.1,
    (csr_from_coo_aliases_storage c9Src c9Arena (by decide) (by decide)).2.2.1,
    (csr_from_coo_aliases_storage c9Src c9Arena (by decide) (by decide)).2.2.2.2 0 9⟩

end Spmv
